import Mathlib

/-!
Verification model of the `remap` transform (`src/transforms/remap.rs`):
the build-time schema projection (`RemapConfig::outputs`,
`merge_array_definitions`, `move_field_definitions_into_message`), the
per-event runtime dispatch (`Remap::transform`), the diagnostic
annotation (`Remap::dropped_data`, `Remap::annotate_dropped`) and the
constructor (`Remap::new`).

The value-shape lattice `Kind` and the schema `Definition` live in a
library crate of the repository that is not part of the sources here;
their operations are modelled from the spec (each such definition is
marked `Modelled from the spec:`) and validated against the unit tests
that ship with `remap.rs`.
-/

set_option maxHeartbeats 1000000
set_option linter.unusedVariables false

/-- Modelled from the spec: the primitive possibilities of a `Kind`
("absent/undefined, null, boolean, integer, float, byte-string,
timestamp, regular-expression"), one flag per possibility. -/
structure Prims where
  bytes : Bool
  integer : Bool
  float : Bool
  boolean : Bool
  timestamp : Bool
  regex : Bool
  null : Bool
  undefined : Bool
deriving DecidableEq, Repr

/-- Modelled from the spec: a `Kind` is "a set describing which of the
following an event field may hold at runtime: absent/undefined, null,
boolean, integer, float, byte-string, timestamp, regular-expression,
ordered array of (index → Kind), or object of (name → Kind)".  A
collection component carries the statically known per-key element kinds
plus an optional kind for the unknown (not index-tracked) elements,
mirroring the `Collection` type consumed by `remap.rs`
(`Collection::from_unknown` appears in its unit tests). -/
inductive Kind : Type where
  | mk (prims : Prims)
       (array : Option (List (Nat × Kind) × Option Kind))
       (object : Option (List (String × Kind) × Option Kind))

def Kind.prims : Kind → Prims
  | .mk p _ _ => p

def Kind.arr : Kind → Option (List (Nat × Kind) × Option Kind)
  | .mk _ a _ => a

def Kind.obj : Kind → Option (List (String × Kind) × Option Kind)
  | .mk _ _ o => o

def Prims.empty : Prims :=
  ⟨false, false, false, false, false, false, false, false⟩

def Prims.orP (p q : Prims) : Prims :=
  ⟨p.bytes || q.bytes, p.integer || q.integer, p.float || q.float,
   p.boolean || q.boolean, p.timestamp || q.timestamp, p.regex || q.regex,
   p.null || q.null, p.undefined || q.undefined⟩

def Kind.never : Kind := .mk Prims.empty none none

def Kind.bytes : Kind := .mk { Prims.empty with bytes := true } none none

def Kind.integer : Kind := .mk { Prims.empty with integer := true } none none

def Kind.float : Kind := .mk { Prims.empty with float := true } none none

def Kind.boolean : Kind := .mk { Prims.empty with boolean := true } none none

def Kind.timestamp : Kind := .mk { Prims.empty with timestamp := true } none none

def Kind.regex : Kind := .mk { Prims.empty with regex := true } none none

def Kind.null : Kind := .mk { Prims.empty with null := true } none none

/-- `Kind::or_undefined` / adding the "may be absent" possibility. -/
def Kind.addUndefined : Kind → Kind
  | .mk p a o => .mk { p with undefined := true } a o

/-- `Kind::object` over statically known fields (no unknown fields). -/
def Kind.object (fields : List (String × Kind)) : Kind :=
  .mk Prims.empty none (some (fields, none))

/-- `Kind::array` over statically known indices (no unknown elements). -/
def Kind.arrayKnown (elems : List (Nat × Kind)) : Kind :=
  .mk Prims.empty (some (elems, none)) none

/-- `Kind::array(Collection::from_unknown k)`: an array whose elements
are statically known only collectively, each of kind `k`. -/
def Kind.arrayFromUnknown (k : Kind) : Kind :=
  .mk Prims.empty (some ([], some k)) none

/-- `add_object` on a kind (used by the unit tests of `remap.rs`). -/
def Kind.addObject (k : Kind) (fields : List (String × Kind)) : Kind :=
  .mk k.prims k.arr (some (fields, none))

/-- `add_array` on a kind (used by the unit tests of `remap.rs`). -/
def Kind.addArray (k : Kind) (elems : List (Nat × Kind)) : Kind :=
  .mk k.prims (some (elems, none)) k.obj

/-- First binding for a key in an association list of kinds. -/
def lookupKind {κ : Type} [DecidableEq κ] (k : κ) : List (κ × Kind) → Option Kind
  | [] => none
  | (k', v) :: rest => if k = k' then some v else lookupKind k rest

/-- Remove every binding for a key in an association list of kinds. -/
def removeKey {κ : Type} [DecidableEq κ] (k : κ) : List (κ × Kind) → List (κ × Kind)
  | [] => []
  | (k', v) :: rest => if k = k' then removeKey k rest else (k', v) :: removeKey k rest

theorem sizeOf_lookupKind {κ : Type} [DecidableEq κ] [SizeOf κ] {k : κ}
    {l : List (κ × Kind)} {v : Kind} (h : lookupKind k l = some v) :
    sizeOf v < sizeOf l := by
  induction l with
  | nil => simp [lookupKind] at h
  | cons hd tl ih =>
    obtain ⟨k', w⟩ := hd
    simp only [lookupKind] at h
    split at h
    · cases h
      simp only [List.cons.sizeOf_spec, Prod.mk.sizeOf_spec]
      omega
    · have := ih h
      simp only [List.cons.sizeOf_spec, Prod.mk.sizeOf_spec]
      omega

theorem sizeOf_removeKey_le {κ : Type} [DecidableEq κ] [SizeOf κ] (k : κ)
    (l : List (κ × Kind)) : sizeOf (removeKey k l) ≤ sizeOf l := by
  induction l with
  | nil => simp [removeKey]
  | cons hd tl ih =>
    obtain ⟨k', w⟩ := hd
    simp only [removeKey]
    split
    · simp only [List.cons.sizeOf_spec, Prod.mk.sizeOf_spec]
      omega
    · simp only [List.cons.sizeOf_spec, Prod.mk.sizeOf_spec]
      omega

mutual

/-- Modelled from the spec: `merge(a, b, union)` "unions two Kinds
field-by-field; for object fields present in one operand but not the
other, the missing side is treated as `undefined` in the union (so the
result allows either shape)"; the union "never loses a possibility
present in either operand".  Validated below against the
`test_merged_array_definitions_*` and `test_field_definitions_in_message`
unit tests of `remap.rs`. -/
def Kind.union : Kind → Kind → Kind
  | .mk p1 a1 o1, .mk p2 a2 o2 =>
      .mk (p1.orP p2) (unionArrC a1 a2) (unionObjC o1 o2)
termination_by k1 k2 => sizeOf k1 + sizeOf k2
decreasing_by
  all_goals simp only [Kind.mk.sizeOf_spec]
  all_goals omega

/-- Union of the optional array components of two kinds: absent on one
side keeps the other side unchanged. -/
def unionArrC :
    Option (List (Nat × Kind) × Option Kind) →
    Option (List (Nat × Kind) × Option Kind) →
    Option (List (Nat × Kind) × Option Kind)
  | none, c => c
  | some c, none => some c
  | some (l1, u1), some (l2, u2) => some (unionKnownN l1 l2, unionUnk u1 u2)
termination_by c1 c2 => sizeOf c1 + sizeOf c2
decreasing_by
  all_goals simp only [Option.some.sizeOf_spec, Prod.mk.sizeOf_spec]
  all_goals omega

/-- Union of the optional object components of two kinds. -/
def unionObjC :
    Option (List (String × Kind) × Option Kind) →
    Option (List (String × Kind) × Option Kind) →
    Option (List (String × Kind) × Option Kind)
  | none, c => c
  | some c, none => some c
  | some (l1, u1), some (l2, u2) => some (unionKnownS l1 l2, unionUnk u1 u2)
termination_by c1 c2 => sizeOf c1 + sizeOf c2
decreasing_by
  all_goals simp only [Option.some.sizeOf_spec, Prod.mk.sizeOf_spec]
  all_goals omega

/-- Union of the unknown-element kinds of two collections. -/
def unionUnk : Option Kind → Option Kind → Option Kind
  | none, u => u
  | some a, none => some a
  | some a, some b => some (a.union b)
termination_by u1 u2 => sizeOf u1 + sizeOf u2
decreasing_by
  simp only [Option.some.sizeOf_spec]
  omega

/-- Union of the known index kinds of two array collections: indices
present on both sides get the union of their kinds, indices present on
one side only additionally admit `undefined`. -/
def unionKnownN : List (Nat × Kind) → List (Nat × Kind) → List (Nat × Kind)
  | [], l2 => l2.map (fun kv => (kv.1, kv.2.addUndefined))
  | (k, v) :: rest, l2 =>
      match h : lookupKind k l2 with
      | some w => (k, v.union w) :: unionKnownN rest (removeKey k l2)
      | none => (k, v.addUndefined) :: unionKnownN rest l2
termination_by l1 l2 => sizeOf l1 + sizeOf l2
decreasing_by
  · have := sizeOf_lookupKind h
    simp only [List.cons.sizeOf_spec, Prod.mk.sizeOf_spec]
    omega
  · have := sizeOf_removeKey_le k l2
    simp only [List.cons.sizeOf_spec, Prod.mk.sizeOf_spec]
    omega
  · simp only [List.cons.sizeOf_spec, Prod.mk.sizeOf_spec]
    omega

/-- Union of the known field kinds of two object collections: fields
present on both sides get the union of their kinds, fields present on
one side only additionally admit `undefined` ("the missing side is
treated as `undefined` in the union"). -/
def unionKnownS : List (String × Kind) → List (String × Kind) → List (String × Kind)
  | [], l2 => l2.map (fun kv => (kv.1, kv.2.addUndefined))
  | (k, v) :: rest, l2 =>
      match h : lookupKind k l2 with
      | some w => (k, v.union w) :: unionKnownS rest (removeKey k l2)
      | none => (k, v.addUndefined) :: unionKnownS rest l2
termination_by l1 l2 => sizeOf l1 + sizeOf l2
decreasing_by
  · have := sizeOf_lookupKind h
    simp only [List.cons.sizeOf_spec, Prod.mk.sizeOf_spec]
    omega
  · have := sizeOf_removeKey_le k l2
    simp only [List.cons.sizeOf_spec, Prod.mk.sizeOf_spec]
    omega
  · simp only [List.cons.sizeOf_spec, Prod.mk.sizeOf_spec]
    omega

end

@[simp]
theorem Kind.union_mk (p1 p2 : Prims) (a1 a2 : Option (List (Nat × Kind) × Option Kind))
    (o1 o2 : Option (List (String × Kind) × Option Kind)) :
    Kind.union (.mk p1 a1 o1) (.mk p2 a2 o2)
      = .mk (p1.orP p2) (unionArrC a1 a2) (unionObjC o1 o2) := by
  rw [Kind.union]

@[simp]
theorem unionArrC_none_left (c : Option (List (Nat × Kind) × Option Kind)) :
    unionArrC none c = c := by
  rw [unionArrC]

@[simp]
theorem unionArrC_some_none (c : List (Nat × Kind) × Option Kind) :
    unionArrC (some c) none = some c := by
  rw [unionArrC]

@[simp]
theorem unionArrC_some_some (l1 l2 : List (Nat × Kind)) (u1 u2 : Option Kind) :
    unionArrC (some (l1, u1)) (some (l2, u2))
      = some (unionKnownN l1 l2, unionUnk u1 u2) := by
  rw [unionArrC]

@[simp]
theorem unionObjC_none_left (c : Option (List (String × Kind) × Option Kind)) :
    unionObjC none c = c := by
  rw [unionObjC]

@[simp]
theorem unionObjC_some_none (c : List (String × Kind) × Option Kind) :
    unionObjC (some c) none = some c := by
  rw [unionObjC]

@[simp]
theorem unionObjC_some_some (l1 l2 : List (String × Kind)) (u1 u2 : Option Kind) :
    unionObjC (some (l1, u1)) (some (l2, u2))
      = some (unionKnownS l1 l2, unionUnk u1 u2) := by
  rw [unionObjC]

@[simp]
theorem unionUnk_none_left (u : Option Kind) : unionUnk none u = u := by
  rw [unionUnk]

@[simp]
theorem unionUnk_some_none (a : Kind) : unionUnk (some a) none = some a := by
  rw [unionUnk]

@[simp]
theorem unionUnk_some_some (a b : Kind) :
    unionUnk (some a) (some b) = some (a.union b) := by
  rw [unionUnk]

@[simp]
theorem unionKnownN_nil (l2 : List (Nat × Kind)) :
    unionKnownN [] l2 = l2.map (fun kv => (kv.1, kv.2.addUndefined)) := by
  rw [unionKnownN]

@[simp]
theorem unionKnownN_cons (k : Nat) (v : Kind) (rest l2 : List (Nat × Kind)) :
    unionKnownN ((k, v) :: rest) l2
      = match lookupKind k l2 with
        | some w => (k, v.union w) :: unionKnownN rest (removeKey k l2)
        | none => (k, v.addUndefined) :: unionKnownN rest l2 := by
  rw [unionKnownN]
  split <;> rename_i hl <;> simp [hl]

@[simp]
theorem unionKnownS_nil (l2 : List (String × Kind)) :
    unionKnownS [] l2 = l2.map (fun kv => (kv.1, kv.2.addUndefined)) := by
  rw [unionKnownS]

@[simp]
theorem unionKnownS_cons (k : String) (v : Kind) (rest l2 : List (String × Kind)) :
    unionKnownS ((k, v) :: rest) l2
      = match lookupKind k l2 with
        | some w => (k, v.union w) :: unionKnownS rest (removeKey k l2)
        | none => (k, v.addUndefined) :: unionKnownS rest l2 := by
  rw [unionKnownS]
  split <;> rename_i hl <;> simp [hl]

/-! ## Kind operations used by `remap.rs` -/

/-- `kind.remove_array()`: drop the array possibility (with its whole
collection, known and unknown elements alike). -/
def Kind.removeArray : Kind → Kind
  | .mk p a o => .mk p none o

/-- `kind.remove_object()`: drop the object possibility. -/
def Kind.removeObject : Kind → Kind
  | .mk p a o => .mk p a none

def Kind.removeBytes : Kind → Kind
  | .mk p a o => .mk { p with bytes := false } a o

def Kind.removeInteger : Kind → Kind
  | .mk p a o => .mk { p with integer := false } a o

def Kind.removeFloat : Kind → Kind
  | .mk p a o => .mk { p with float := false } a o

def Kind.removeBoolean : Kind → Kind
  | .mk p a o => .mk { p with boolean := false } a o

def Kind.removeTimestamp : Kind → Kind
  | .mk p a o => .mk { p with timestamp := false } a o

def Kind.removeRegex : Kind → Kind
  | .mk p a o => .mk { p with regex := false } a o

def Kind.removeNull : Kind → Kind
  | .mk p a o => .mk { p with null := false } a o

def Prims.isEmpty (p : Prims) : Bool :=
  !(p.bytes || p.integer || p.float || p.boolean || p.timestamp || p.regex ||
    p.null || p.undefined)

/-- `kind.is_never()`: the kind admits no possibility at all (not even
`undefined`). -/
def Kind.isNever : Kind → Bool
  | .mk p a o => p.isEmpty && a.isNone && o.isNone

/-- `kind.as_array()`: the array collection, when the array possibility
is present. -/
def Kind.asArray (k : Kind) : Option (List (Nat × Kind) × Option Kind) :=
  k.arr

/-- Modelled from the spec: `Collection::reduced_kind` — "compute the
union of all of its statically known element Kinds (including
index-specific kinds, reduced into one merged object/scalar Kind with
fields not present at every index marked `undefined`)".  The known
per-index kinds and the collective unknown-element kind are unioned;
validated against the `test_merged_array_definitions_*` unit tests of
`remap.rs`. -/
def reducedKind (c : List (Nat × Kind) × Option Kind) : Kind :=
  ((c.1.map Prod.snd) ++ c.2.toList).foldl Kind.union Kind.never

/-- `CollisionStrategy`: only `Union` is exercised by `remap.rs`. -/
inductive CollisionStrategy : Type where
  | union
deriving DecidableEq

/-- `Strategy { collisions }` of the kind-merge API. -/
structure Strategy where
  collisions : CollisionStrategy

/-- Modelled from the spec: `kind.merge(other, strategy)` with the
`Union` collision strategy is the lattice union ("Only one collision
strategy is required: `union`"). -/
def Kind.merge (k other : Kind) (s : Strategy) : Kind :=
  match s.collisions with
  | .union => k.union other

/-! ## Schema definitions -/

/-- The two event-metadata namespaces. -/
inductive LogNamespace : Type where
  | Legacy
  | Vector
deriving DecidableEq, Repr

/-- The globally configured `log_schema()` field keys read by
`remap.rs` (`message_key()` and `metadata_key()`). -/
structure LogSchema where
  message_key : String
  metadata_key : String

/-- Modelled from the spec: a `SchemaDefinition` carries "a Kind for the
event body, a Kind for attached metadata, the set of namespaces ... it
is valid under".  The semantic-meaning map is not modelled: the only
operations `remap.rs` performs on it (`try_with_meaning`,
`with_meaning`) leave the kind and namespace components untouched and no
claim concerns meanings. -/
structure Definition where
  event_kind : Kind
  metadata_kind : Kind
  log_namespaces : List LogNamespace

/-- Modelled from the spec: the lattice top used by `Definition::any`.
The unconstrained collection components of the library's `Kind::any`
are not representable finitely and are not observed by any claim; only
the primitive possibilities are carried. -/
def Kind.anyTop : Kind :=
  .mk ⟨true, true, true, true, true, true, true, true⟩ none none

/-- Modelled from the spec: the metadata kind that
`Definition::new_with_default_metadata` attaches; its contents are not
observed by any claim. -/
def defaultMetadataKind : Kind := Kind.anyTop

/-- `Definition::new(event_kind, metadata_kind, namespaces)`. -/
def Definition.new (ek mk : Kind) (ns : List LogNamespace) : Definition :=
  ⟨ek, mk, ns⟩

/-- `Definition::new_with_default_metadata(kind, namespaces)`. -/
def Definition.new_with_default_metadata (k : Kind) (ns : List LogNamespace) :
    Definition :=
  ⟨k, defaultMetadataKind, ns⟩

/-- Modelled from the spec: `Definition::any` — the unconstrained
definition valid under both namespaces. -/
def Definition.any : Definition :=
  ⟨Kind.anyTop, Kind.anyTop, [.Legacy, .Vector]⟩

/-- Replace the binding for a key in an association list of kinds, or
append it. -/
def setKey {κ : Type} [DecidableEq κ] (k : κ) (v : Kind) :
    List (κ × Kind) → List (κ × Kind)
  | [] => [(k, v)]
  | (k', w) :: rest =>
      if k = k' then (k, v) :: rest else (k', w) :: setKey k v rest

/-- Set a single statically known object field of a kind, creating the
object possibility when absent. -/
def Kind.withObjectField (k : Kind) (name : String) (v : Kind) : Kind :=
  match k with
  | .mk p a o =>
    match o with
    | some (known, unk) => .mk p a (some (setKey name v known, unk))
    | none => .mk p a (some ([(name, v)], none))

/-- Modelled from the spec: `definition.with_event_field(path, kind, _)`
for the single-segment paths used by `remap.rs` — sets the field's kind
in the event kind (the meaning argument is not modelled). -/
def Definition.with_event_field (d : Definition) (name : String) (v : Kind) :
    Definition :=
  { d with event_kind := d.event_kind.withObjectField name v }

/-- Modelled from the spec: `definition.with_metadata_field(path, kind, _)`
for the single-segment paths used by `remap.rs`. -/
def Definition.with_metadata_field (d : Definition) (name : String) (v : Kind) :
    Definition :=
  { d with metadata_kind := d.metadata_kind.withObjectField name v }

/-- Modelled from the spec: `Definition::merge` unions the event kinds,
the metadata kinds and the namespace sets of two definitions. -/
def Definition.mergeD (a b : Definition) : Definition :=
  ⟨a.event_kind.union b.event_kind,
   a.metadata_kind.union b.metadata_kind,
   a.log_namespaces ++ b.log_namespaces.filter (fun n => ¬ a.log_namespaces.contains n)⟩

/-! ## The two projection post-passes of `remap.rs` -/

/-- `move_field_definitions_into_message` (remap.rs:672): if anything
other than an object or array remains of the event kind, move that
residual into the configured `message` field and strip the moved
primitive possibilities from the top level. -/
def move_field_definitions_into_message (ls : LogSchema) (definition : Definition) :
    Definition :=
  let message := (definition.event_kind.removeObject).removeArray
  if !message.isNever then
    let messageObj := Kind.object [(ls.message_key, message)]
    let ek := definition.event_kind.removeBytes.removeInteger.removeFloat
      |>.removeBoolean.removeTimestamp.removeRegex.removeNull
    { definition with event_kind := ek.union messageObj }
  else
    definition

/-- `merge_array_definitions` (remap.rs:705): if the event kind can be
an array, remove the array possibility and merge the reduced element
kind back in at the top level. -/
def merge_array_definitions (definition : Definition) : Definition :=
  match definition.event_kind.asArray with
  | some array =>
      let array_kinds := reducedKind array
      let kind := definition.event_kind.removeArray
      { definition with event_kind := kind.merge array_kinds ⟨.union⟩ }
  | none => definition

/-! ## Build-time schema projection (`RemapConfig::outputs`) -/

/-- The name of the reroute port (`const DROPPED` in remap.rs). -/
def DROPPED : String := "dropped"

/-- `DataType::all()` is the only data-type set `remap.rs` attaches to
its outputs. -/
inductive DataTypeM : Type where
  | all
deriving DecidableEq

/-- A `TransformOutput`: data types, optional port name, and the
per-input-branch schema definitions. -/
structure TransformOutput where
  data_type : DataTypeM
  port : Option String
  definitions : List (String × Definition)

/-- The compiled program's final type state (`Program::final_type_state`,
an opaque capability of the script compiler): the event kind and the
metadata kind after hypothetical execution. -/
structure TypeStateModel where
  target_kind : Kind
  metadata_kind : Kind

/-- The configuration fields of `RemapConfig` that the modelled code
reads.  The script source text / file path feeds only the opaque
compiler and is not modelled. -/
structure RemapConfigModel where
  timezone : Option String
  drop_on_error : Bool
  drop_on_abort : Bool
  reroute_dropped : Bool

/-- The per-branch primary ("default") output definition computed by
`RemapConfig::outputs` (remap.rs:262-291) before the two post-passes:
on a successful compile, the program's final type state under the input
branch's namespaces; on a compile failure, `Kind::never` ("the program
failed to compile, so it can never return a value").  The meaning
loops touch only the (unmodelled) meanings component. -/
def default_definition (compiled : Except Unit TypeStateModel)
    (input_definition : Definition) : Definition :=
  match compiled with
  | .ok state =>
      Definition.new state.target_kind state.metadata_kind
        input_definition.log_namespaces
  | .error _ =>
      Definition.new_with_default_metadata Kind.never
        input_definition.log_namespaces

/-- The diagnostic-payload object kind attached to the dropped-output
definition (remap.rs:307-313). -/
def dropped_payload_kind : Kind :=
  Kind.object
    [("reason", Kind.bytes), ("message", Kind.bytes),
     ("component_id", Kind.bytes), ("component_type", Kind.bytes),
     ("component_kind", Kind.bytes)]

/-- The per-branch dropped-output definition computed by
`RemapConfig::outputs` (remap.rs:295-343): a `never` base merged, per
active namespace of the input branch, with the input definition
carrying the diagnostic payload fields (nested under the metadata key
for the legacy namespace, at metadata roots for the Vector namespace). -/
def dropped_definition (ls : LogSchema) (input_definition : Definition) :
    Definition :=
  let d0 := Definition.new_with_default_metadata Kind.never
    input_definition.log_namespaces
  let d1 :=
    if input_definition.log_namespaces.contains LogNamespace.Legacy then
      d0.mergeD (input_definition.with_event_field ls.metadata_key
        dropped_payload_kind)
    else d0
  if input_definition.log_namespaces.contains LogNamespace.Vector then
    d1.mergeD
      (((((input_definition.with_metadata_field "reason" Kind.bytes).with_metadata_field
            "message" Kind.bytes).with_metadata_field
            "component_id" Kind.bytes).with_metadata_field
            "component_type" Kind.bytes).with_metadata_field
            "component_kind" Kind.bytes)
  else d1

/-- `RemapConfig::outputs` (remap.rs:229-365).  The script compiler is
an opaque external capability, so the projection is modelled as a
function of its result (`compiled`).  Per input branch the primary
definition and the dropped definition each go through
`merge_array_definitions` then `move_field_definitions_into_message`;
the dropped port is exposed iff `reroute_dropped` is set. -/
def RemapConfig.outputs (cfg : RemapConfigModel)
    (compiled : Except Unit TypeStateModel) (ls : LogSchema)
    (input_definitions : List (String × Definition)) : List TransformOutput :=
  let default_definitions := input_definitions.map
    (fun p => (p.1, move_field_definitions_into_message ls
      (merge_array_definitions (default_definition compiled p.2))))
  let dropped_definitions := input_definitions.map
    (fun p => (p.1, move_field_definitions_into_message ls
      (merge_array_definitions (dropped_definition ls p.2))))
  let default_output : TransformOutput := ⟨.all, none, default_definitions⟩
  if cfg.reroute_dropped then
    [default_output, ⟨.all, some DROPPED, dropped_definitions⟩]
  else
    [default_output]

/-! ## Runtime faults and diagnostics -/

/-- A note attached to a runtime fault: either an explicitly
user-authored message (`Note::UserErrorMessage`) or any other note
variant, carried with its rendering. -/
inductive Note : Type where
  | userErrorMessage (msg : String)
  | otherNote (msg : String)
deriving DecidableEq

def Note.isUserErrorMessage : Note → Bool
  | .userErrorMessage _ => true
  | .otherNote _ => false

/-- `note.to_string()`. -/
def Note.render : Note → String
  | .userErrorMessage m => m
  | .otherNote m => m

/-- An `ExpressionError`: its ordered note list and its default string
rendering (`error.to_string()`). -/
structure ExpressionError where
  notes : List Note
  rendered : String

/-- The message-selection part of `Remap::dropped_data`
(remap.rs:495-501): the last note that is a `UserErrorMessage`,
falling back to the error's own rendering. -/
def dropped_message (error : ExpressionError) : String :=
  match (error.notes.filter Note.isUserErrorMessage).getLast? with
  | some note => note.render
  | none => error.rendered

/-- The structured diagnostic payload built by `Remap::dropped_data`
(remap.rs:494-509). -/
structure DroppedData where
  reason : String
  message : String
  component_id : Option String
  component_type : String
  component_kind : String
deriving DecidableEq

/-- `Remap::dropped_data`. -/
def dropped_data (component_key : Option String) (reason : String)
    (error : ExpressionError) : DroppedData :=
  ⟨reason, dropped_message error, component_key, "remap", "transform"⟩

/-! ## Events -/

/-- A field value as far as the modelled code observes it: either the
diagnostic payload written by `annotate_dropped` or some pre-existing
opaque value. -/
inductive DValue : Type where
  | payload (d : DroppedData)
  | opaque' (tag : Nat)
deriving DecidableEq

/-- A log event: its namespace, its event fields and its metadata
fields, each keyed by a path (list of segments). -/
structure LogEventM where
  ns : LogNamespace
  fields : List (List String × DValue)
  metadata : List (List String × DValue)

/-- A metric event, as far as the modelled code observes it: its tags. -/
structure MetricM where
  tags : List (String × String)

/-- A trace event: its fields keyed by path. -/
structure TraceM where
  fields : List (List String × DValue)

inductive EventData : Type where
  | log (l : LogEventM)
  | metric (m : MetricM)
  | trace (t : TraceM)

/-- An event together with the schema-definition stamp on its metadata
(`event.metadata_mut().set_schema_definition(..)`). -/
structure Event where
  data : EventData
  schema_definition : Option Definition

/-- Insert/overwrite a field at a path (`log.insert`, `trace.insert`). -/
def insertField (fs : List (List String × DValue)) (p : List String)
    (v : DValue) : List (List String × DValue) :=
  if fs.any (fun q => q.1 = p) then
    fs.map (fun q => if q.1 = p then (p, v) else q)
  else
    fs ++ [(p, v)]

/-- `metric.replace_tag(name, value)`: replace the value of a tag, or
insert it.  The tag map is modelled as an association list; only lookup
behavior is observed by the claims. -/
def replaceTag : List (String × String) → String → String → List (String × String)
  | [], k, v => [(k, v)]
  | (k', w) :: rest, k, v =>
      if k' = k then (k, v) :: rest else (k', w) :: replaceTag rest k v

/-- First value bound to a tag name. -/
def lookupTag : List (String × String) → String → Option String
  | [], _ => none
  | (k', v) :: rest, k => if k' = k then some v else lookupTag rest k

/-- `Remap::annotate_dropped` (remap.rs:511-550): attach the diagnostic
payload at the event-kind- and namespace-specific location; metrics get
one flattened tag per payload field (message intentionally omitted). -/
def annotate_dropped (ls : LogSchema) (component_key : Option String)
    (event : Event) (reason : String) (error : ExpressionError) : Event :=
  { event with
    data :=
      match event.data with
      | .log l =>
        match l.ns with
        | .Legacy =>
            .log { l with fields :=
              (insertField l.fields [ls.metadata_key, "dropped"]
                (.payload (dropped_data component_key reason error))) }
        | .Vector =>
            .log { l with metadata :=
              (insertField l.metadata ["vector", "dropped"]
                (.payload (dropped_data component_key reason error))) }
      | .metric m =>
          .metric ⟨replaceTag
            (replaceTag
              (replaceTag
                (replaceTag m.tags (ls.metadata_key ++ ".dropped.reason") reason)
                (ls.metadata_key ++ ".dropped.component_id")
                ((component_key.map id).getD ""))
              (ls.metadata_key ++ ".dropped.component_type") "remap")
            (ls.metadata_key ++ ".dropped.component_kind") "transform"⟩
      | .trace t =>
          .trace ⟨insertField t.fields [ls.metadata_key]
            (.payload (dropped_data component_key reason error))⟩ }

/-! ## The per-event runtime (`Remap::transform`) -/

/-- `metric_tag_values` exposure mode. -/
inductive MetricTagValues : Type where
  | single
  | full
deriving DecidableEq

/-- The state of a built `Remap` transform (remap.rs:372-387).  The
compiled program is opaque; only its static `fallible`/`abortable`
flags (`program.info()`) are observed by the modelled code. -/
structure Remap where
  component_key : Option String
  fallible : Bool
  abortable : Bool
  timezone : String
  drop_on_error : Bool
  drop_on_abort : Bool
  reroute_dropped : Bool
  default_schema_definition : Definition
  dropped_schema_definition : Definition
  metric_tag_values : MetricTagValues

/-- `Terminate`: the two failure outcomes of running the script. -/
inductive Terminate : Type where
  | abort (error : ExpressionError)
  | error (error : ExpressionError)

/-- `VrlTarget::into_events`: the event(s) produced from the mutated
target on success — one event, or a fan-out sequence of logs or
traces. -/
inductive TargetEvents : Type where
  | one (e : Event)
  | logs (es : List Event)
  | traces (es : List Event)

def TargetEvents.toList : TargetEvents → List Event
  | .one e => [e]
  | .logs es => es
  | .traces es => es

/-- The observable effect of one `transform` call on the output buffer,
plus whether the internal-consistency warning (`warn!`) fired.  The
buffer push order is preserved; `primary` models `output.push` and
`dropped` models `output.push_named(DROPPED, ..)`. -/
structure TransformResult where
  primary : List Event
  dropped : List Event
  warned : Bool

/-- Stamp an event with a schema definition before pushing
(`push_default` / `push_dropped`, remap.rs:644-668). -/
def set_schema_definition (e : Event) (d : Definition) : Event :=
  { e with schema_definition := some d }

/-- The clone decision of `Remap::transform` (remap.rs:572-580):
preserve the pre-mutation event iff a failure outcome the program can
statically reach would still need the event. -/
def original_event_of (r : Remap) (event : Event) : Option Event :=
  let forward_on_error := !r.drop_on_error || r.reroute_dropped
  let forward_on_abort := !r.drop_on_abort || r.reroute_dropped
  if (r.fallible && forward_on_error) || (r.abortable && forward_on_abort) then
    some event
  else
    none

/-- `Remap::transform` (remap.rs:561-641).  The script runtime and
`VrlTarget::into_events` are opaque external capabilities (the script
runs against the mutable target, not against the preserved copy), so
the dispatch is modelled as a function of their combined outcome
`result`.  The internal telemetry counters (`emit!`) are not modelled;
the `warn!` call is modelled by the `warned` flag. -/
def Remap.transform (ls : LogSchema) (r : Remap) (event : Event)
    (result : Except Terminate TargetEvents) : TransformResult :=
  let original_event := original_event_of r event
  match result with
  | .ok target =>
      ⟨target.toList.map (fun e => set_schema_definition e r.default_schema_definition),
       [], false⟩
  | .error terminate =>
      let rde : String × ExpressionError × Bool :=
        match terminate with
        | .abort err => ("abort", err, r.drop_on_abort)
        | .error err => ("error", err, r.drop_on_error)
      match original_event with
      | some ev =>
          if !rde.2.2 then
            ⟨[set_schema_definition ev r.default_schema_definition], [], false⟩
          else if r.reroute_dropped then
            ⟨[], [set_schema_definition
                    (annotate_dropped ls r.component_key ev rde.1 rde.2.1)
                    r.dropped_schema_definition], false⟩
          else
            ⟨[], [], false⟩
      | none =>
          if !rde.2.2 || r.reroute_dropped then
            ⟨[], [], true⟩
          else
            ⟨[], [], false⟩

/-! ## Construction (`Remap::new`) -/

/-- The part of the `TransformContext` read by `Remap::new`: the
component key, the schema-definition map keyed by output port, and the
global timezone. -/
structure TransformContextModel where
  key : Option String
  schema_definitions : List (Option String × List (String × Definition))
  global_timezone : String

/-- Map lookup on the port-keyed schema-definition map. -/
def getEntry {α : Type} (m : List (Option String × α)) (k : Option String) :
    Option α :=
  (m.find? (fun p => p.1 == k)).map (fun p => p.2)

/-- The static flags of a compiled program (`program.info()`). -/
structure ProgramInfoM where
  fallible : Bool
  abortable : Bool

/-- `Remap::new` (remap.rs:445-487).  The two `.expect(..)` panics are
modelled as `Except.error`.  The dropped-port schema definition is
looked up under the `dropped` key, falling back to the default-port
entry, then to `Definition::any` when the entry holds no definitions. -/
def Remap.new (config : RemapConfigModel) (context : TransformContextModel)
    (program : ProgramInfoM) (metric_tag_values : MetricTagValues) :
    Except String Remap :=
  match getEntry context.schema_definitions none with
  | none => .error "default schema required"
  | some defaultDefs =>
    let default_schema_definition :=
      ((defaultDefs.head?.map (fun p => p.2)).getD Definition.any)
    match (getEntry context.schema_definitions (some DROPPED)).orElse
        (fun _ => getEntry context.schema_definitions none) with
    | none => .error "dropped schema required"
    | some droppedDefs =>
      let dropped_schema_definition :=
        ((droppedDefs.head?.map (fun p => p.2)).getD Definition.any)
      .ok
        { component_key := context.key
          fallible := program.fallible
          abortable := program.abortable
          timezone := config.timezone.getD context.global_timezone
          drop_on_error := config.drop_on_error
          drop_on_abort := config.drop_on_abort
          reroute_dropped := config.reroute_dropped
          default_schema_definition := default_schema_definition
          dropped_schema_definition := dropped_schema_definition
          metric_tag_values := metric_tag_values }

/-! ## Validation of the modelled lattice against the unit tests of
`remap.rs` -/

/-- The default global log schema (`message` / `metadata` keys). -/
def defaultLogSchema : LogSchema := ⟨"message", "metadata"⟩

/-- `test_field_definitions_in_message`, first assertion
(remap.rs:1670-1678): a plain byte-string event kind moves into the
`message` field. -/
theorem model_test_field_definitions_in_message_plain :
    move_field_definitions_into_message defaultLogSchema
      (Definition.new_with_default_metadata Kind.bytes [.Legacy])
      = Definition.new_with_default_metadata
          (Kind.object [("message", Kind.bytes)]) [.Legacy] := by
  simp [move_field_definitions_into_message, Definition.new_with_default_metadata,
    defaultLogSchema, Kind.bytes, Kind.object, Kind.isNever, Prims.isEmpty,
    Kind.removeObject, Kind.removeArray, Kind.removeBytes, Kind.removeInteger,
    Kind.removeFloat, Kind.removeBoolean, Kind.removeTimestamp, Kind.removeRegex,
    Kind.removeNull, Prims.empty, Prims.orP, Kind.never]

/-- `test_field_definitions_in_message`, second assertion
(remap.rs:1680-1694): when a `message` field already exists its kind is
unioned with the moved residual, not overwritten. -/
theorem model_test_field_definitions_in_message_existing :
    move_field_definitions_into_message defaultLogSchema
      (Definition.new_with_default_metadata
        (Kind.mk { Prims.empty with bytes := true } none
          (some ([("message", Kind.integer)], none))) [.Legacy])
      = Definition.new_with_default_metadata
          (Kind.object [("message",
            Kind.mk { Prims.empty with bytes := true, integer := true } none none)])
          [.Legacy] := by
  simp [move_field_definitions_into_message, Definition.new_with_default_metadata,
    defaultLogSchema, Kind.bytes, Kind.integer, Kind.object, Kind.isNever,
    Prims.isEmpty, Kind.removeObject, Kind.removeArray, Kind.removeBytes,
    Kind.removeInteger, Kind.removeFloat, Kind.removeBoolean, Kind.removeTimestamp,
    Kind.removeRegex, Kind.removeNull, Prims.empty, Prims.orP, Kind.never,
    lookupKind, removeKey, Kind.addUndefined]

/-- `test_merged_array_definitions_simple` (remap.rs:1697-1721): an
array kind whose elements are collectively known to be an object
reduces to exactly that object kind, with no `undefined` marks. -/
theorem model_test_merged_array_definitions_simple :
    merge_array_definitions
      (Definition.new_with_default_metadata
        (Kind.arrayFromUnknown
          (Kind.object [("carrot", Kind.bytes), ("potato", Kind.integer)]))
        [.Legacy])
      = Definition.new_with_default_metadata
          (Kind.object [("carrot", Kind.bytes), ("potato", Kind.integer)])
          [.Legacy] := by
  simp [merge_array_definitions, Definition.new_with_default_metadata,
    Kind.arrayFromUnknown, Kind.object, Kind.asArray, Kind.arr, reducedKind,
    Kind.removeArray, Kind.merge, Kind.bytes, Kind.integer, Kind.never,
    Prims.empty, Prims.orP, lookupKind, removeKey, Kind.addUndefined]

/-- `test_merged_array_definitions_complex` (remap.rs:1723-1763): known
per-index element kinds are unioned into the top level; object fields
not present on both sides of a union admit `undefined`. -/
theorem model_test_merged_array_definitions_complex :
    merge_array_definitions
      (Definition.new_with_default_metadata
        (Kind.mk { Prims.empty with bytes := true }
          (some ([(0, Kind.integer), (1, Kind.boolean),
                  (2, Kind.object [("peas", Kind.bytes)])], none))
          (some ([("carrot", Kind.bytes), ("potato", Kind.integer)], none)))
        [.Legacy])
      = Definition.new_with_default_metadata
          (Kind.mk { Prims.empty with bytes := true, integer := true, boolean := true }
            none
            (some ([("carrot", Kind.bytes.addUndefined),
                    ("potato", Kind.integer.addUndefined),
                    ("peas", Kind.bytes.addUndefined)], none)))
          [.Legacy] := by
  simp [merge_array_definitions, Definition.new_with_default_metadata,
    Kind.asArray, Kind.arr, reducedKind, Kind.removeArray, Kind.merge,
    Kind.object, Kind.bytes, Kind.integer, Kind.boolean, Kind.never,
    Prims.empty, Prims.orP, lookupKind, removeKey, Kind.addUndefined]

/-! ## Helper lemmas -/

theorem pipeline_preserves_never (ls : LogSchema) (ns : List LogNamespace) :
    move_field_definitions_into_message ls
      (merge_array_definitions (Definition.new_with_default_metadata Kind.never ns))
      = Definition.new_with_default_metadata Kind.never ns := rfl

theorem Kind.prims_union (a b : Kind) :
    (a.union b).prims = a.prims.orP b.prims := by
  cases a
  cases b
  simp [Kind.prims]

/-- Whether a kind admits any of the primitive possibilities that
`move_field_definitions_into_message` moves (everything except
`undefined`, arrays and objects). -/
def hasMovablePrim (k : Kind) : Bool :=
  k.prims.bytes || k.prims.integer || k.prims.float || k.prims.boolean ||
  k.prims.timestamp || k.prims.regex || k.prims.null

theorem isNever_false_of_movable {k : Kind} (h : hasMovablePrim k = true) :
    k.isNever = false := by
  cases k with
  | mk p a o =>
    simp only [hasMovablePrim, Kind.prims] at h
    simp only [Kind.isNever, Prims.isEmpty, h, Bool.true_or, Bool.not_true,
      Bool.false_and]

/-! ## Claim C2 -/

/-- C2: the engine preserves an immutable pre-mutation copy of the
event iff `(program.fallible && forwardOnError) || (program.abortable
&& forwardOnAbort)`, where `forwardOnError = !drop_on_error ||
reroute_dropped` and `forwardOnAbort = !drop_on_abort ||
reroute_dropped`. -/
theorem claim_c2_premutation_copy_iff (r : Remap) (event : Event) :
    original_event_of r event = some event ↔
      ((r.fallible = true ∧ (r.drop_on_error = false ∨ r.reroute_dropped = true))
        ∨ (r.abortable = true ∧ (r.drop_on_abort = false ∨ r.reroute_dropped = true))) := by
  unfold original_event_of
  rcases r with ⟨ck, f, ab, tz, de, da, rr, d1, d2, mtv⟩
  cases f <;> cases ab <;> cases de <;> cases da <;> cases rr <;> simp

/-! ## Claim C9 -/

/-- C9: the projection always returns the primary port first, and a
second port named `dropped` exists iff `reroute_dropped` is set,
independent of the input branches and of whether compilation
succeeded. -/
theorem claim_c9_output_ports (cfg : RemapConfigModel)
    (compiled : Except Unit TypeStateModel) (ls : LogSchema)
    (input_definitions : List (String × Definition)) :
    ((RemapConfig.outputs cfg compiled ls input_definitions).map
        (fun o => o.port)
      = if cfg.reroute_dropped then [none, some DROPPED] else [none])
    ∧ DROPPED = "dropped" := by
  refine ⟨?_, rfl⟩
  unfold RemapConfig.outputs
  cases h : cfg.reroute_dropped <;> simp [h]

/-! ## Claim C5 -/

/-- C5: when the script fails to compile, the projection still returns
normally and maps every input branch's primary-output definition to
kind `never`. -/
theorem claim_c5_compile_failure_projects_never (cfg : RemapConfigModel)
    (ls : LogSchema) (input_definitions : List (String × Definition)) :
    (RemapConfig.outputs cfg (Except.error ()) ls input_definitions).head?.map
        (fun o => (o.port, o.definitions))
      = some (none, input_definitions.map (fun p =>
          (p.1, Definition.new_with_default_metadata Kind.never
            p.2.log_namespaces))) := by
  unfold RemapConfig.outputs
  cases h : cfg.reroute_dropped <;>
    simp [h, default_definition, pipeline_preserves_never]

/-! ## Claim C3 -/

/-- The array-of-objects example of claim C3, fed through the full
projection post-passes. -/
def c3_example_input : Definition :=
  Definition.new_with_default_metadata
    (Kind.arrayFromUnknown
      (Kind.object [("a", Kind.integer), ("b", Kind.boolean)]))
    [.Legacy]

def c3_example_projected : Definition :=
  move_field_definitions_into_message defaultLogSchema
    (merge_array_definitions c3_example_input)

/-- C3 counterexample: a result kind "array of objects with fields
{a: int, b: bool}" projects to "object with fields {a: int, b: bool}" —
the fields are *not* marked `undefined`, contrary to the claim. -/
theorem claim_c3_counterexample :
    c3_example_projected.event_kind
        = Kind.object [("a", Kind.integer), ("b", Kind.boolean)]
    ∧ c3_example_projected.event_kind
        ≠ Kind.object [("a", Kind.integer.addUndefined),
                       ("b", Kind.boolean.addUndefined)] := by
  have heval : c3_example_projected.event_kind
      = Kind.object [("a", Kind.integer), ("b", Kind.boolean)] := by
    simp [c3_example_projected, c3_example_input, merge_array_definitions,
      move_field_definitions_into_message, Definition.new_with_default_metadata,
      Kind.arrayFromUnknown, Kind.object, Kind.asArray, Kind.arr, reducedKind,
      Kind.removeArray, Kind.removeObject, Kind.merge, Kind.integer, Kind.boolean,
      Kind.never, Prims.empty, Prims.orP, lookupKind, removeKey, Kind.addUndefined,
      Kind.isNever, Prims.isEmpty, Kind.removeBytes, Kind.removeInteger,
      Kind.removeFloat, Kind.removeBoolean, Kind.removeTimestamp, Kind.removeRegex,
      Kind.removeNull, defaultLogSchema]
  refine ⟨heval, ?_⟩
  rw [heval]
  intro h
  simp [Kind.object, Kind.integer, Kind.boolean, Kind.addUndefined,
    Prims.empty] at h

/-- C3 (amended): flattening removes the array possibility and unions
the reduction of the element kinds (known per-index kinds and the
collective unknown-element kind) directly into the top-level kind, not
nested; fields not present at every index are marked `undefined`; but a
result kind "array of objects with fields {a: int, b: bool}" projects
to "object with fields {a: int, b: bool}" at the top level — fields
present in every element kind are *not* marked `undefined` — with no
array kind remaining. -/
theorem claim_c3_flatten_array (d : Definition)
    (arr : List (Nat × Kind) × Option Kind)
    (h : d.event_kind.asArray = some arr) :
    ((merge_array_definitions d).event_kind
        = (d.event_kind.removeArray).union (reducedKind arr))
    ∧ (c3_example_projected.event_kind
        = Kind.object [("a", Kind.integer), ("b", Kind.boolean)])
    ∧ ((merge_array_definitions
          (Definition.new_with_default_metadata
            (Kind.arrayKnown [(0, Kind.object [("a", Kind.integer)]),
                              (1, Kind.object [("b", Kind.boolean)])])
            [.Legacy])).event_kind
        = Kind.object [("a", Kind.integer.addUndefined),
                       ("b", Kind.boolean.addUndefined)]) := by
  refine ⟨?_, ?_, ?_⟩
  · unfold merge_array_definitions
    rw [h]
    simp [Kind.merge]
  · simp [c3_example_projected, c3_example_input, merge_array_definitions,
      move_field_definitions_into_message, Definition.new_with_default_metadata,
      Kind.arrayFromUnknown, Kind.object, Kind.asArray, Kind.arr, reducedKind,
      Kind.removeArray, Kind.removeObject, Kind.merge, Kind.integer, Kind.boolean,
      Kind.never, Prims.empty, Prims.orP, lookupKind, removeKey, Kind.addUndefined,
      Kind.isNever, Prims.isEmpty, Kind.removeBytes, Kind.removeInteger,
      Kind.removeFloat, Kind.removeBoolean, Kind.removeTimestamp, Kind.removeRegex,
      Kind.removeNull, defaultLogSchema]
  · simp [merge_array_definitions, Definition.new_with_default_metadata,
      Kind.arrayKnown, Kind.object, Kind.asArray, Kind.arr, reducedKind,
      Kind.removeArray, Kind.merge, Kind.integer, Kind.boolean, Kind.never,
      Prims.empty, Prims.orP, lookupKind, removeKey, Kind.addUndefined]

/-- Witness for C3: the flatten law applied to the concrete
array-of-objects example. -/
theorem claim_c3_flatten_array_witness :
    (merge_array_definitions c3_example_input).event_kind
      = (c3_example_input.event_kind.removeArray).union
          (reducedKind ([], some (Kind.object
            [("a", Kind.integer), ("b", Kind.boolean)]))) :=
  (claim_c3_flatten_array c3_example_input
    ([], some (Kind.object [("a", Kind.integer), ("b", Kind.boolean)]))
    rfl).1

/-! ## Claim C4 -/

/-- C4: scalar promotion behaves as specified — when the kind left
after removing the array and object possibilities still has a
scalar/null/timestamp/regex possibility, the residual is wrapped into
an object under the configured message field and unioned back (so an
existing `message` field's kind is unioned, not overwritten), the
scalar possibilities disappear from the top level, and in the
projection the promotion runs after array flattening. -/
theorem claim_c4_scalar_promotion (ls : LogSchema) (d : Definition)
    (h : hasMovablePrim ((d.event_kind.removeObject).removeArray) = true) :
    ((move_field_definitions_into_message ls d).event_kind
        = (d.event_kind.removeBytes.removeInteger.removeFloat
            |>.removeBoolean.removeTimestamp.removeRegex.removeNull).union
            (Kind.object [(ls.message_key,
              (d.event_kind.removeObject).removeArray)]))
    ∧ (hasMovablePrim (move_field_definitions_into_message ls d).event_kind
        = false)
    ∧ (∀ (cfg : RemapConfigModel) (compiled : Except Unit TypeStateModel)
          (input_definitions : List (String × Definition)),
        (RemapConfig.outputs cfg compiled ls input_definitions).head?.map
            (fun o => o.definitions)
          = some (input_definitions.map (fun p =>
              (p.1, move_field_definitions_into_message ls
                (merge_array_definitions (default_definition compiled p.2))))))
    ∧ (move_field_definitions_into_message defaultLogSchema
        (Definition.new_with_default_metadata
          (Kind.mk { Prims.empty with bytes := true } none
            (some ([("message", Kind.integer)], none))) [.Legacy])
        = Definition.new_with_default_metadata
            (Kind.object [("message",
              Kind.mk { Prims.empty with bytes := true, integer := true }
                none none)]) [.Legacy]) := by
  have hmain : (move_field_definitions_into_message ls d).event_kind
      = (d.event_kind.removeBytes.removeInteger.removeFloat
          |>.removeBoolean.removeTimestamp.removeRegex.removeNull).union
          (Kind.object [(ls.message_key,
            (d.event_kind.removeObject).removeArray)]) := by
    unfold move_field_definitions_into_message
    simp [isNever_false_of_movable h]
  refine ⟨hmain, ?_, ?_, ?_⟩
  · rw [hmain]
    rcases d with ⟨ek, mk', ns⟩
    cases ek
    simp [hasMovablePrim, Kind.prims, Kind.prims_union, Prims.orP,
      Kind.removeBytes, Kind.removeInteger, Kind.removeFloat, Kind.removeBoolean,
      Kind.removeTimestamp, Kind.removeRegex, Kind.removeNull, Kind.object,
      Prims.empty]
  · intro cfg compiled input_definitions
    unfold RemapConfig.outputs
    cases hr : cfg.reroute_dropped <;> simp [hr]
  · exact model_test_field_definitions_in_message_existing

/-- Witness for C4: the promotion law applied to a byte-string event
kind under the default log schema. -/
theorem claim_c4_scalar_promotion_witness :
    (move_field_definitions_into_message defaultLogSchema
        (Definition.new_with_default_metadata Kind.bytes [.Legacy])).event_kind
      = ((Definition.new_with_default_metadata Kind.bytes
            [.Legacy]).event_kind.removeBytes.removeInteger.removeFloat
          |>.removeBoolean.removeTimestamp.removeRegex.removeNull).union
          (Kind.object [(defaultLogSchema.message_key,
            ((Definition.new_with_default_metadata Kind.bytes
              [.Legacy]).event_kind.removeObject).removeArray)]) :=
  (claim_c4_scalar_promotion defaultLogSchema
    (Definition.new_with_default_metadata Kind.bytes [.Legacy]) rfl).1

/-! ## Claim C1 -/

/-- C1: for a deterministically failing script (a runtime error is only
reachable when the program is statically fallible; an abort only when
it is abortable), the primary output receives the original pre-mutation
event iff the matching drop flag is off; the dropped output receives
the annotated original iff the drop flag and rerouting are both on;
otherwise nothing is emitted.  The law is stated for the error outcome
with `drop_on_error` and for the abort outcome with `drop_on_abort`. -/
theorem claim_c1_drop_policy_matrix (ls : LogSchema) (r : Remap)
    (event : Event) (err : ExpressionError) :
    (r.fallible = true →
      (((Remap.transform ls r event (.error (.error err))).primary
          = [set_schema_definition event r.default_schema_definition])
        ↔ r.drop_on_error = false)
      ∧ (((Remap.transform ls r event (.error (.error err))).dropped
          = [set_schema_definition
               (annotate_dropped ls r.component_key event "error" err)
               r.dropped_schema_definition])
        ↔ (r.drop_on_error = true ∧ r.reroute_dropped = true))
      ∧ (r.drop_on_error = true → r.reroute_dropped = false →
          (Remap.transform ls r event (.error (.error err))).primary = []
          ∧ (Remap.transform ls r event (.error (.error err))).dropped = []))
    ∧ (r.abortable = true →
      (((Remap.transform ls r event (.error (.abort err))).primary
          = [set_schema_definition event r.default_schema_definition])
        ↔ r.drop_on_abort = false)
      ∧ (((Remap.transform ls r event (.error (.abort err))).dropped
          = [set_schema_definition
               (annotate_dropped ls r.component_key event "abort" err)
               r.dropped_schema_definition])
        ↔ (r.drop_on_abort = true ∧ r.reroute_dropped = true))
      ∧ (r.drop_on_abort = true → r.reroute_dropped = false →
          (Remap.transform ls r event (.error (.abort err))).primary = []
          ∧ (Remap.transform ls r event (.error (.abort err))).dropped = [])) := by
  rcases r with ⟨ck, f, ab, tz, de, da, rr, d1, d2, mtv⟩
  cases f <;> cases ab <;> cases de <;> cases da <;> cases rr <;>
    simp [Remap.transform, original_event_of]

/-- Witness for C1: a fallible, non-dropping configuration forwards the
original event to the primary output on a runtime error. -/
theorem claim_c1_drop_policy_matrix_witness :
    (Remap.transform defaultLogSchema
        ⟨none, true, false, "UTC", false, false, false,
         Definition.any, Definition.any, .single⟩
        ⟨.metric ⟨[]⟩, none⟩
        (.error (.error ⟨[], "runtime error"⟩))).primary
      = [set_schema_definition ⟨.metric ⟨[]⟩, none⟩ Definition.any] :=
  ((claim_c1_drop_policy_matrix defaultLogSchema
      ⟨none, true, false, "UTC", false, false, false,
       Definition.any, Definition.any, .single⟩
      ⟨.metric ⟨[]⟩, none⟩ ⟨[], "runtime error"⟩).1 rfl).1.mpr rfl

/-! ## Claim C7 -/

/-- C7: when no pre-mutation copy was preserved but the policy would
have required forwarding or rerouting, the engine emits the warning,
discards the event, and emits nothing on any output. -/
theorem claim_c7_missing_copy_warns (ls : LogSchema) (r : Remap)
    (event : Event) (t : Terminate)
    (hcopy : original_event_of r event = none)
    (hpolicy : (!(match t with
        | .abort _ => r.drop_on_abort
        | .error _ => r.drop_on_error) || r.reroute_dropped) = true) :
    (Remap.transform ls r event (.error t)).primary = []
    ∧ (Remap.transform ls r event (.error t)).dropped = []
    ∧ (Remap.transform ls r event (.error t)).warned = true := by
  cases t <;> simp_all [Remap.transform]

/-- Witness for C7: an infallible, non-abortable configuration that
nevertheless receives a runtime error warns and drops the event. -/
theorem claim_c7_missing_copy_warns_witness :
    (Remap.transform defaultLogSchema
        ⟨none, false, false, "UTC", false, false, false,
         Definition.any, Definition.any, .single⟩
        ⟨.metric ⟨[]⟩, none⟩
        (.error (.error ⟨[], "runtime error"⟩))).warned = true :=
  (claim_c7_missing_copy_warns defaultLogSchema
      ⟨none, false, false, "UTC", false, false, false,
       Definition.any, Definition.any, .single⟩
      ⟨.metric ⟨[]⟩, none⟩ (.error ⟨[], "runtime error"⟩) rfl rfl).2.2

/-! ## Claim C6 -/

/-- C6: the diagnostic message equals the last user-authored note of
the fault when one exists, and the fault's default rendering otherwise;
it is the message placed into the diagnostic payload. -/
theorem claim_c6_diagnostic_message (error : ExpressionError) :
    ((∀ n ∈ error.notes, n.isUserErrorMessage = false) →
        dropped_message error = error.rendered)
    ∧ (∀ (l1 l2 : List Note) (m : String),
        error.notes = l1 ++ Note.userErrorMessage m :: l2 →
        (∀ n ∈ l2, n.isUserErrorMessage = false) →
        dropped_message error = m)
    ∧ (∀ (component_key : Option String) (reason : String),
        (dropped_data component_key reason error).message
          = dropped_message error) := by
  refine ⟨?_, ?_, fun _ _ => rfl⟩
  · intro hall
    unfold dropped_message
    have hfil : error.notes.filter Note.isUserErrorMessage = [] := by
      rw [List.filter_eq_nil_iff]
      intro a ha
      simp [hall a ha]
    rw [hfil]
    rfl
  · intro l1 l2 m hsplit hl2
    unfold dropped_message
    have hfil2 : l2.filter Note.isUserErrorMessage = [] := by
      rw [List.filter_eq_nil_iff]
      intro a ha
      simp [hl2 a ha]
    rw [hsplit, List.filter_append, List.filter_cons]
    simp only [Note.isUserErrorMessage, if_true, hfil2]
    rw [List.getLast?_concat]
    rfl

/-- Witness for C6: a fault whose notes end in a user-authored message
yields that message. -/
theorem claim_c6_diagnostic_message_witness :
    dropped_message
        ⟨[Note.otherNote "ctx", Note.userErrorMessage "boom",
          Note.otherNote "after"], "default rendering"⟩
      = "boom" :=
  (claim_c6_diagnostic_message
      ⟨[Note.otherNote "ctx", Note.userErrorMessage "boom",
        Note.otherNote "after"], "default rendering"⟩).2.1
    [Note.otherNote "ctx"] [Note.otherNote "after"] "boom" rfl
    (by intro n hn; simp at hn; rw [hn]; rfl)

/-! ## Claim C8 -/

theorem lookupTag_replaceTag_self (t : List (String × String)) (k v : String) :
    lookupTag (replaceTag t k v) k = some v := by
  induction t with
  | nil => simp [replaceTag, lookupTag]
  | cons hd tl ih =>
    obtain ⟨k', w⟩ := hd
    by_cases h : k' = k
    · simp [replaceTag, h, lookupTag]
    · simp [replaceTag, h, lookupTag, ih]

theorem lookupTag_replaceTag_other (t : List (String × String)) (k v k2 : String)
    (h : k2 ≠ k) : lookupTag (replaceTag t k v) k2 = lookupTag t k2 := by
  have h' : ¬ (k = k2) := fun he => h he.symm
  induction t with
  | nil => simp [replaceTag, lookupTag, h']
  | cons hd tl ih =>
    obtain ⟨k', w⟩ := hd
    by_cases hk : k' = k
    · subst hk
      simp [replaceTag, lookupTag, h']
    · simp only [replaceTag, hk, if_false, lookupTag, ih]

theorem append_right_ne (m : String) {s t : String} (h : s ≠ t) :
    m ++ s ≠ m ++ t := by
  intro he
  apply h
  have hd : (m ++ s).data = (m ++ t).data := congrArg String.data he
  rw [String.data_append, String.data_append] at hd
  exact String.ext (List.append_cancel_left hd)

/-- The tag names written onto a dropped metric. -/
def droppedTagNames (ls : LogSchema) : List String :=
  [ls.metadata_key ++ ".dropped.reason",
   ls.metadata_key ++ ".dropped.component_id",
   ls.metadata_key ++ ".dropped.component_type",
   ls.metadata_key ++ ".dropped.component_kind"]

/-- The tags of a metric event datum. -/
def EventData.metricTags : EventData → List (String × String)
  | .metric m => m.tags
  | _ => []

/-- C8: annotating a metric for the dropped output writes one flattened
tag `<metadata-key>.dropped.<field>` for exactly the fields reason,
component_id, component_type and component_kind; every other tag —
in particular any `<metadata-key>.dropped.message` tag — is left
untouched. -/
theorem claim_c8_metric_dropped_tags (ls : LogSchema)
    (component_key : Option String) (tags : List (String × String))
    (sch : Option Definition) (reason : String) (error : ExpressionError) :
    (lookupTag ((annotate_dropped ls component_key ⟨.metric ⟨tags⟩, sch⟩
          reason error).data.metricTags)
        (ls.metadata_key ++ ".dropped.reason") = some reason)
    ∧ (lookupTag ((annotate_dropped ls component_key ⟨.metric ⟨tags⟩, sch⟩
          reason error).data.metricTags)
        (ls.metadata_key ++ ".dropped.component_id")
        = some ((component_key.map id).getD ""))
    ∧ (lookupTag ((annotate_dropped ls component_key ⟨.metric ⟨tags⟩, sch⟩
          reason error).data.metricTags)
        (ls.metadata_key ++ ".dropped.component_type") = some "remap")
    ∧ (lookupTag ((annotate_dropped ls component_key ⟨.metric ⟨tags⟩, sch⟩
          reason error).data.metricTags)
        (ls.metadata_key ++ ".dropped.component_kind") = some "transform")
    ∧ (∀ k, k ∉ droppedTagNames ls →
        lookupTag ((annotate_dropped ls component_key ⟨.metric ⟨tags⟩, sch⟩
            reason error).data.metricTags) k
          = lookupTag tags k) := by
  have hne1 : ls.metadata_key ++ ".dropped.reason"
      ≠ ls.metadata_key ++ ".dropped.component_id" :=
    append_right_ne _ (by decide)
  have hne2 : ls.metadata_key ++ ".dropped.reason"
      ≠ ls.metadata_key ++ ".dropped.component_type" :=
    append_right_ne _ (by decide)
  have hne3 : ls.metadata_key ++ ".dropped.reason"
      ≠ ls.metadata_key ++ ".dropped.component_kind" :=
    append_right_ne _ (by decide)
  have hne4 : ls.metadata_key ++ ".dropped.component_id"
      ≠ ls.metadata_key ++ ".dropped.component_type" :=
    append_right_ne _ (by decide)
  have hne5 : ls.metadata_key ++ ".dropped.component_id"
      ≠ ls.metadata_key ++ ".dropped.component_kind" :=
    append_right_ne _ (by decide)
  have hne6 : ls.metadata_key ++ ".dropped.component_type"
      ≠ ls.metadata_key ++ ".dropped.component_kind" :=
    append_right_ne _ (by decide)
  simp only [annotate_dropped, EventData.metricTags]
  refine ⟨?_, ?_, ?_, ?_, ?_⟩
  · rw [lookupTag_replaceTag_other _ _ _ _ hne3,
      lookupTag_replaceTag_other _ _ _ _ hne2,
      lookupTag_replaceTag_other _ _ _ _ hne1,
      lookupTag_replaceTag_self]
  · rw [lookupTag_replaceTag_other _ _ _ _ hne5,
      lookupTag_replaceTag_other _ _ _ _ hne4,
      lookupTag_replaceTag_self]
  · rw [lookupTag_replaceTag_other _ _ _ _ hne6,
      lookupTag_replaceTag_self]
  · rw [lookupTag_replaceTag_self]
  · intro k hk
    simp only [droppedTagNames, List.mem_cons, List.not_mem_nil, or_false,
      not_or] at hk
    obtain ⟨h1, h2, h3, h4⟩ := hk
    rw [lookupTag_replaceTag_other _ _ _ _ h4,
      lookupTag_replaceTag_other _ _ _ _ h3,
      lookupTag_replaceTag_other _ _ _ _ h2,
      lookupTag_replaceTag_other _ _ _ _ h1]

/-- Witness for C8: annotating a metric carrying an unrelated tag under
the default log schema. -/
theorem claim_c8_metric_dropped_tags_witness :
    (lookupTag ((annotate_dropped defaultLogSchema (some "my_remap")
          ⟨.metric ⟨[("host", "a")]⟩, none⟩ "error"
          ⟨[], "oops"⟩).data.metricTags)
        ("metadata" ++ ".dropped.component_kind") = some "transform")
    ∧ (lookupTag ((annotate_dropped defaultLogSchema (some "my_remap")
          ⟨.metric ⟨[("host", "a")]⟩, none⟩ "error"
          ⟨[], "oops"⟩).data.metricTags) "host"
        = lookupTag [("host", "a")] "host") :=
  ⟨(claim_c8_metric_dropped_tags defaultLogSchema (some "my_remap")
      [("host", "a")] none "error" ⟨[], "oops"⟩).2.2.2.1,
   (claim_c8_metric_dropped_tags defaultLogSchema (some "my_remap")
      [("host", "a")] none "error" ⟨[], "oops"⟩).2.2.2.2 "host" (by decide)⟩

/-! ## Claim C10 -/

/-- C10: when the context's schema-definition map has no entry for the
`dropped` port, construction still succeeds (given the always-required
default entry), the dropped-output schema definition falls back to the
default entry's first definition, hence equals the primary one, and an
entry holding no definitions falls back to `Definition::any`. -/
theorem claim_c10_dropped_schema_fallback (config : RemapConfigModel)
    (context : TransformContextModel) (program : ProgramInfoM)
    (metric_tag_values : MetricTagValues)
    (defs : List (String × Definition))
    (hdrop : getEntry context.schema_definitions (some DROPPED) = none)
    (hdef : getEntry context.schema_definitions none = some defs) :
    ∃ r, Remap.new config context program metric_tag_values = .ok r
      ∧ r.dropped_schema_definition
          = ((defs.head?.map (fun p => p.2)).getD Definition.any)
      ∧ r.dropped_schema_definition = r.default_schema_definition
      ∧ (defs = [] → r.dropped_schema_definition = Definition.any) := by
  have hnew : Remap.new config context program metric_tag_values = .ok
      { component_key := context.key
        fallible := program.fallible
        abortable := program.abortable
        timezone := config.timezone.getD context.global_timezone
        drop_on_error := config.drop_on_error
        drop_on_abort := config.drop_on_abort
        reroute_dropped := config.reroute_dropped
        default_schema_definition :=
          ((defs.head?.map (fun p => p.2)).getD Definition.any)
        dropped_schema_definition :=
          ((defs.head?.map (fun p => p.2)).getD Definition.any)
        metric_tag_values := metric_tag_values } := by
    unfold Remap.new
    rw [hdef]
    simp [hdrop, hdef]
  exact ⟨_, hnew, rfl, rfl, fun he => by subst he; rfl⟩

/-- Witness for C10: a context carrying only an empty default entry
builds successfully with `Definition::any` as the dropped schema. -/
theorem claim_c10_dropped_schema_fallback_witness :
    ∃ r, Remap.new ⟨none, false, true, false⟩
          ⟨none, [(none, [])], "UTC"⟩ ⟨false, false⟩ .single = .ok r
      ∧ r.dropped_schema_definition
          = ((([] : List (String × Definition)).head?.map (fun p => p.2)).getD
              Definition.any)
      ∧ r.dropped_schema_definition = r.default_schema_definition
      ∧ (([] : List (String × Definition)) = [] →
          r.dropped_schema_definition = Definition.any) :=
  claim_c10_dropped_schema_fallback ⟨none, false, true, false⟩
    ⟨none, [(none, [])], "UTC"⟩ ⟨false, false⟩ .single [] rfl rfl
